import Mathlib

/-!
Shallow embedding of `scsm/core.py` (a Steam game-server manager):
the `Index` resolution engine, the `App`/`Server` lifecycle operations and
the `SteamCMD` adapter's output filtering.  External effects (subprocesses,
the filesystem) are made explicit: directory contents, captured output lines
and adapter results are parameters, and Python exceptions are `Except` errors.
-/

namespace Scsm

/-- Python exceptions that the modelled code can raise. -/
inductive PyError where
  | typeError
  | attributeError
  | fileNotFoundError
  | indexError
  deriving Repr, DecidableEq

/-- `charsStartWith s p` is true when `p` is an initial segment of `s`
(character lists). -/
def charsStartWith : List Char → List Char → Bool
  | _, [] => true
  | [], _ :: _ => false
  | c :: cs, p :: ps => c == p && charsStartWith cs ps

/-- `charsContain s p`: `p` occurs contiguously somewhere in `s`. -/
def charsContain : List Char → List Char → Bool
  | [], pat => pat.isEmpty
  | c :: cs, pat => charsStartWith (c :: cs) pat || charsContain cs pat

/-- Python's substring test `pat in s`. -/
def strIn (pat s : String) : Bool :=
  charsContain s.toList pat.toList

/-- Python's `s.endswith(pat)`: `pat` reversed is an initial segment of `s`
reversed. -/
def pyEndsWith (s pat : String) : Bool :=
  charsStartWith s.toList.reverse pat.toList.reverse

/-- Python's `s.split(sep)` with an explicit one-character separator:
splits at every occurrence, keeping empty fields. -/
def splitChars (sep : Char) : List Char → List (List Char)
  | [] => [[]]
  | c :: cs =>
    let r := splitChars sep cs
    if c == sep then [] :: r
    else
      match r with
      | [] => [[c]]
      | g :: gs => (c :: g) :: gs

/-- Python's `s.split(sep)` on strings. -/
def pySplit (s : String) (sep : Char) : List String :=
  (splitChars sep s.toList).map fun g => String.mk g

/-- Python's `''.join(parts)`. -/
def pyJoin (parts : List String) : String :=
  String.mk (parts.flatMap String.toList)

/-- A user-supplied token after Python's `int(app)` conversion attempt:
numeric tokens resolve against app ids, string tokens against variant and
server names (`Index.search`, core.py 236-239). -/
inductive Token where
  | num : Nat → Token
  | str : String → Token
  deriving Repr, DecidableEq

/-- The variants of one app id: insertion-ordered mapping
variant name → ordered list of server names. -/
abbrev Variants := List (String × List String)

/-- The persisted index `app_index.yaml`: insertion-ordered mapping
app id → variants (modelled as an association list, like a Python dict). -/
abbrev IndexData := List (Nat × Variants)

namespace Index

/-- The string-token branch of `Index.search` (core.py 248-256): for each
app id in insertion order, first a variant-name match (refined by a server
name equal to the token), then a server-name match under any of that app
id's variants, before moving to the next app id. -/
def searchStr : IndexData → String → Option Nat × Option String × Option String
  | [], _ => (none, none, none)
  | (app_id, variants) :: rest, s =>
    match variants.find? (fun v => v.1 == s) with
    | some (_, servers) =>
      if servers.contains s then (some app_id, some s, some s)
      else (some app_id, some s, none)
    | none =>
      match variants.find? (fun v => v.2.contains s) with
      | some (vname, _) => (some app_id, some vname, some s)
      | none => searchStr rest s

/-- `Index.search` (core.py 233-256).  A numeric token is compared against
the integer app-id keys (`app in data.keys()`); inside the loop an integer
never equals a string variant name nor occurs in a string server list, so a
numeric token that is not a key falls through to `(None, None, None)`. -/
def search (data : IndexData) : Token → Option Nat × Option String × Option String
  | .num n =>
    if data.any (fun e => e.1 == n) then (some n, none, none)
    else (none, none, none)
  | .str s => searchStr data s

/-- `Index.list_all` (core.py 217-231): for each app id, yield each variant
name when there is more than one variant, else the bare app id. -/
def list_all (data : IndexData) : List Token :=
  data.flatMap fun e =>
    if e.2.length > 1 then e.2.map (fun v => Token.str v.1)
    else [Token.num e.1]

/-- One definition file `{app_id}.yaml` as `Index.update` reads it:
its `app_id` field and its `apps` mapping variant name → server names. -/
structure DefFile where
  app_id : Nat
  apps : Variants
  deriving Repr, DecidableEq

/-- Python-dict assignment `d[k] = v` on the association list: an existing
key keeps its position, a new key is appended. -/
def dictSet (d : IndexData) (k : Nat) (v : Variants) : IndexData :=
  if d.any (fun e => e.1 == k) then
    d.map (fun e => if e.1 == k then (k, v) else e)
  else d ++ [(k, v)]

/-- `Index.update` (core.py 258-275): scan all definition files (default
root first, then user root — `files` is that scan order) and for each file,
for each variant, assign `app_index[app_id] = {variant: server names}`.
The assignment inside the per-variant loop overwrites the whole entry. -/
def update (files : List DefFile) : IndexData :=
  files.foldl
    (fun idx f =>
      f.apps.foldl (fun idx v => dictSet idx f.app_id [v]) idx)
    []

end Index

namespace SteamCMD

/-- The fixed success markers of `SteamCMD.filter` (core.py 409). -/
def success : List String := ["Success", "Update complete"]

/-- The fixed error markers of `SteamCMD.filter` (core.py 410). -/
def error : List String := ["ERROR", "Failed", "Fatal Error"]

/-- `any(word in line for word in success + error)` (core.py 415). -/
def hasMarker (line : String) : Bool :=
  (success ++ error).any (fun w => strIn w line)

/-- `SteamCMD.filter` (core.py 407-417) on the captured output: scan the
lines in reverse order and return the first line containing a marker,
paired with the subprocess's exit code; `none` when no line matches. -/
def filter (exit_code : Int) (lines : List String) : Int × Option String :=
  match lines.reverse.find? hasMarker with
  | some line => (exit_code, some line)
  | none => (exit_code, none)

/-- `SteamCMD.run` (core.py 477-483) with the subprocess result made
explicit: in verbose mode the output is not parsed and the message is
`None`; otherwise delegate to `filter`. -/
def run (verbose : Bool) (exit_code : Int) (lines : List String) :
    Int × Option String :=
  if verbose then (exit_code, none)
  else filter exit_code lines

end SteamCMD

namespace App

/-- A Python value as compared by `d != 'steamapps'` in `App.installed`
(core.py 113): `d` is a `pathlib.Path`, the literal is a `str`, and
`PurePath.__eq__` returns `NotImplemented` on a non-path operand, so a path
and a string are never equal. -/
inductive PyVal where
  | str : String → PyVal
  | path : List String → PyVal
  deriving Repr, DecidableEq

/-- Python `==` on the two value kinds involved: equal only within a kind. -/
def pyEq : PyVal → PyVal → Bool
  | .str a, .str b => a == b
  | .path a, .path b => a == b
  | _, _ => false

/-- `App.installed` (core.py 106-115) with the filesystem explicit:
`dirExists` is `self.app_dir.exists()`, `appDirParts` the components of
`self.app_dir`, and `entries` the child names `iterdir` yields (as paths
`app_dir / name`).  Returns true on the first entry `d` with
`d != 'steamapps'`. -/
def installed (dirExists : Bool) (appDirParts : List String)
    (entries : List String) : Bool :=
  dirExists &&
    entries.any fun name =>
      !(pyEq (.path (appDirParts ++ [name])) (.str "steamapps"))

/-- The two configuration roots and the provenance flag of one `App`:
`dataApps` is the bundled `{data_dir}/apps` directory, `configApps` the
user `{config_dir}/apps` directory (file name → content). -/
structure ConfigFS where
  dataApps : String → Option String
  configApps : String → Option String
  configIsDefault : Bool

/-- The definition-file name `f'{app_id}.yaml'` (core.py 142). -/
def yamlName (app_id : Nat) : String :=
  toString app_id ++ ".yaml"

/-- `App.copy_config` (core.py 140-145): copy the bundled default
definition file into the user configuration root and clear the is-default
flag.  `shutil.copyfile` raises `FileNotFoundError` when the source is
missing. -/
def copy_config (app_id : Nat) (st : ConfigFS) : Except PyError ConfigFS :=
  match st.dataApps (yamlName app_id) with
  | none => .error .fileNotFoundError
  | some content =>
    .ok { st with
          configApps := fun name =>
            if name = yamlName app_id then some content
            else st.configApps name,
          configIsDefault := false }

/-- What one `App.update` call (core.py 165-184) does, beyond the adapter
call itself: whether the install directory was removed (rollback) and
whether the default config was copied to the user root first. -/
structure UpdateOutcome where
  result : Int × Option String
  removed : Bool
  copiedConfig : Bool
  deriving Repr, DecidableEq

/-- `App.update` (core.py 165-184) with the adapter's result explicit:
`new_install` is `not self.app_dir.exists()` from before the call,
`(exit_code, text)` is what `steamcmd.app_update` returned.  The test
`'(No subscription)' in text` is evaluated first (before `and new_install`)
and raises `TypeError` when `text` is `None`. -/
def update (new_install configIsDefault : Bool) (exit_code : Int)
    (text : Option String) : Except PyError UpdateOutcome :=
  match text with
  | none => .error .typeError
  | some s =>
    if strIn "(No subscription)" s && new_install then
      .ok { result := (exit_code, some s), removed := true,
            copiedConfig := configIsDefault }
    else
      .ok { result := (exit_code, some s), removed := false,
            copiedConfig := configIsDefault }

end App

namespace Server

/-- The `servers` mapping of the resolved variant's definition:
server name → (start directives, stop directives). -/
structure VariantDef where
  servers : List (String × List String × List String)
  deriving Repr

/-- The server-related attributes an `App.__init__`/`Server.__init__` pair
leaves on the instance.  `none` in the option fields models a Python
attribute that was never assigned. -/
structure ServerObj where
  server_name : String
  start_options : Option (List String)
  stop_options : Option (List String)

/-- Lines 46-48 of `App.__init__`: `start_options`/`stop_options` are
assigned only when the resolved `server_name` is truthy; a bare app-id or
variant-name token resolves it to `None` and the attributes stay unset.
(When it is set, `Index.search` only produces names present in the
definition, so the `find?` lookup mirrors `data['servers'][name]`.) -/
def initServerFields (d : VariantDef) (resolved : Option String) :
    Option (List String) × Option (List String) :=
  match resolved with
  | none => (none, none)
  | some s =>
    match d.servers.find? (fun e => e.1 == s) with
    | some e => (some e.2.1, some e.2.2)
    | none => (none, none)

/-- `Server.__init__` (core.py 279-283): run the `App` constructor, then
default `server_name` to `self.server_names[0]` when the token resolved it
to `None` — without revisiting the option attributes.  Indexing an empty
list raises `IndexError`. -/
def init (d : VariantDef) (resolved : Option String) :
    Except PyError ServerObj :=
  let fields := initServerFields d resolved
  match resolved with
  | some s =>
    .ok { server_name := s, start_options := fields.1,
          stop_options := fields.2 }
  | none =>
    match d.servers with
    | [] => .error .indexError
    | e :: _ =>
      .ok { server_name := e.1, start_options := fields.1,
            stop_options := fields.2 }

/-- The argument vector `Server.start` (core.py 320-336) hands to
`subprocess.run`: the detached-session prefix unless debugging, the
executable split on single spaces, then the start directives — joined into
one argument by `''.join` when the FIRST directive ends in `'?'`, else
appended separately. -/
def buildStartCmd (debug : Bool) (session exe : String)
    (start_options : List String) : List String :=
  let cmd := if debug then [] else ["screen", "-dmS", session]
  let cmd := cmd ++ pySplit exe ' '
  match start_options with
  | [] => cmd
  | o :: rest =>
    if pyEndsWith o "?" then cmd ++ [pyJoin (o :: rest)]
    else cmd ++ (o :: rest)

/-- `Server.start` (core.py 320-336): reading `self.start_options` on an
instance where it was never assigned raises `AttributeError`; otherwise the
built argument vector is executed. -/
def start (obj : ServerObj) (debug : Bool) (session exe : String) :
    Except PyError (List String) :=
  match obj.start_options with
  | none => .error .attributeError
  | some opts => .ok (buildStartCmd debug session exe opts)

/-- `Server.stop` (core.py 338-345): raises `AttributeError` when
`stop_options` was never assigned; else sends each stop directive, or a
literal Ctrl-C when the directive list is empty (falsy). -/
def stop (obj : ServerObj) : Except PyError (List String) :=
  match obj.stop_options with
  | none => .error .attributeError
  | some opts =>
    if opts.isEmpty then .ok ["$\x27\x03\x27"]
    else .ok opts

end Server

namespace Index

/-- Every identifying string token one index entry offers to `search`:
its variant names and their server names. -/
def entryTokens (e : Nat × Variants) : List String :=
  e.2.flatMap fun v => v.1 :: v.2

/-- All identifying string tokens of the index. -/
def strTokens (d : IndexData) : List String :=
  d.flatMap entryTokens

/-- The variant names one index entry holds. -/
def entryVariantNames (e : Nat × Variants) : List String :=
  e.2.map fun v => v.1

/-- All variant names of the index, in iteration order. -/
def variantNames (d : IndexData) : List String :=
  d.flatMap entryVariantNames

end Index

/-! ### Concrete instances used to exercise the definitions -/

/-- A single definition file declaring two variants for app id 10. -/
def exFile : Index.DefFile :=
  { app_id := 10, apps := [("a", ["s1"]), ("b", ["s2"])] }

/-- An index where the token `"x"` is a server name under app id 1 and a
variant name under app id 2. -/
def exIdx : IndexData :=
  [(1, [("v1", ["x"])]), (2, [("x", ["y"])])]

/-- A small well-formed index: app 730 with a single variant `"css"`
(servers `"css1"`, `"css2"`), app 740 with two variants. -/
def exIdx2 : IndexData :=
  [(730, [("css", ["css1", "css2"])]),
   (740, [("hlds", ["h1"]), ("hlds2", ["h2"])])]

/-- An index in which the variant name `"a"` is declared under both app
id 1 and app id 2. -/
def exIdxDup : IndexData :=
  [(1, [("a", ["x"]), ("b", ["y"])]), (2, [("a", ["z"]), ("c", ["w"])])]

/-- A configuration state whose bundled root holds every definition file. -/
def exSt : App.ConfigFS :=
  { dataApps := fun _ => some "defaults",
    configApps := fun _ => none,
    configIsDefault := true }

/-- The state `exSt` after `copy_config 730`. -/
def exSt2 : App.ConfigFS :=
  { dataApps := fun _ => some "defaults",
    configApps := fun name =>
      if name = App.yamlName 730 then some "defaults" else none,
    configIsDefault := false }

/-- A variant definition with a single server `"css1"`. -/
def exVar : Server.VariantDef :=
  { servers := [("css1", ["-game"], ["quit"])] }

/-! ## Helper lemmas -/

theorem find?_reverse_eq {α : Type} (p : α → Bool) (l : List α) :
    l.reverse.find? p = (l.filter p).getLast? := by
  induction l using List.reverseRecOn with
  | nil => rfl
  | append_singleton t a ih =>
    rw [List.reverse_append, List.filter_append]
    simp only [List.reverse_singleton, List.singleton_append]
    by_cases h : p a
    · rw [List.find?_cons_of_pos _ h]
      have ha : List.filter p [a] = [a] := by simp [h]
      rw [ha, List.getLast?_concat]
    · rw [List.find?_cons_of_neg _ h, ih]
      have ha : List.filter p [a] = [] := by simp [h]
      rw [ha, List.append_nil]

theorem steamcmd_filter_eq_find (ec : Int) (lines : List String) :
    SteamCMD.filter ec lines = (ec, lines.reverse.find? SteamCMD.hasMarker) := by
  rcases hx : lines.reverse.find? SteamCMD.hasMarker with _ | line <;>
    simp [SteamCMD.filter, hx]

/-! ## Claims -/

/-- C6: `SteamCMD.filter` pairs the exit code with the LAST captured line
containing one of the fixed success or error markers (`none` when no line
has a marker); on the spec's scenario it returns the final success line,
not the earlier error line. -/
theorem steamcmd_filter_last_marker :
    (∀ (ec : Int) (lines : List String),
        SteamCMD.filter ec lines =
          (ec, (lines.filter SteamCMD.hasMarker).getLast?)) ∧
    SteamCMD.filter 0
        ["Downloading...", "ERROR! Disk full",
         "Success! App \x27730\x27 fully installed."] =
      (0, some "Success! App \x27730\x27 fully installed.") := by
  constructor
  · intro ec lines
    rw [steamcmd_filter_eq_find, find?_reverse_eq]
  · rfl

/-- C1 (code bug): `Index.update` on a single definition file declaring the
two variants `"a"` and `"b"` persists an entry holding only the
last-scanned variant `"b"`, not both. -/
theorem index_update_overwrites_variants :
    Index.update [exFile] = [(10, [("b", ["s2"])])] ∧
    Index.update [exFile] ≠ [(10, [("a", ["s1"]), ("b", ["s2"])])] := by
  constructor
  · rfl
  · decide

/-- C2 (code bug): `App.installed` compares each `Path` entry against the
string `'steamapps'`, which is never equal, so a directory whose only entry
is `steamapps` counts as installed; in general the property degenerates to
"the directory exists and is non-empty". -/
theorem app_installed_nonempty_dir :
    App.installed true ["home", "steam", "730", "css"] ["steamapps"] = true ∧
    (∀ (ex : Bool) (parts entries : List String),
        App.installed ex parts entries = (ex && !entries.isEmpty)) := by
  constructor
  · rfl
  · intro ex parts entries
    unfold App.installed
    cases entries <;> simp [App.pyEq]

/-- C4: for a string adapter message, `App.update` returns the adapter's
`(exit_code, text)` pair unchanged, and removes the install directory
exactly when the text contains `"(No subscription)"` and the directory did
not exist before the call. -/
theorem app_update_rollback (ec : Int) (s : String) (new_install cfg : Bool) :
    App.update new_install cfg ec (some s) =
      .ok { result := (ec, some s),
            removed := strIn "(No subscription)" s && new_install,
            copiedConfig := cfg } := by
  unfold App.update
  by_cases h : (strIn "(No subscription)" s && new_install) = true <;> simp [h]

/-- C4 witness: the rollback fires on a fresh install whose message contains
the no-subscription phrase. -/
theorem app_update_rollback_witness :
    App.update true false 1 (some "ERROR! ... (No subscription)") =
      .ok { result := (1, some "ERROR! ... (No subscription)"),
            removed := true, copiedConfig := false } := by
  have h := app_update_rollback 1 "ERROR! ... (No subscription)" true false
  simpa using h

/-- C10: verbose `SteamCMD.run` yields a `None` message, `SteamCMD.filter`
yields a `None` message when no line has a marker, and `App.update` on a
`None` message raises `TypeError` instead of returning the pair or rolling
back. -/
theorem app_update_none_text_type_error :
    (∀ (ec : Int) (lines : List String),
        SteamCMD.run true ec lines = (ec, none)) ∧
    (∀ (ec : Int) (lines : List String),
        (lines.all fun l => !SteamCMD.hasMarker l) = true →
          SteamCMD.filter ec lines = (ec, none)) ∧
    (∀ (new_install cfg : Bool) (ec : Int),
        App.update new_install cfg ec none = .error .typeError) := by
  refine ⟨fun ec lines => rfl, fun ec lines h => ?_, fun _ _ _ => rfl⟩
  rw [steamcmd_filter_eq_find]
  have : lines.reverse.find? SteamCMD.hasMarker = none := by
    rw [List.find?_eq_none]
    intro x hx
    simp only [List.all_eq_true] at h
    have := h x (List.mem_reverse.mp hx)
    simp_all
  rw [this]

/-- C10 witness: a markerless output line list and a `None` message at
concrete inputs. -/
theorem app_update_none_text_type_error_witness :
    SteamCMD.filter 0 ["Downloading..."] = (0, none) ∧
    App.update true true 0 none = .error .typeError := by
  exact ⟨app_update_none_text_type_error.2.1 0 ["Downloading..."] (by decide),
         app_update_none_text_type_error.2.2 true true 0⟩

/-- C9: a `Server` built from a token whose resolution left the server name
`None` gets `server_name` defaulted to the first declared server, but
`start_options`/`stop_options` were never assigned, so `start` and `stop`
raise `AttributeError`. -/
theorem server_null_resolution_attribute_error
    (d : Server.VariantDef) (e : String × List String × List String)
    (rest : List (String × List String × List String))
    (hd : d.servers = e :: rest) (debug : Bool) (session exe : String) :
    (Server.init d none).map Server.ServerObj.server_name = .ok e.1 ∧
    (Server.init d none).bind
        (fun o => Server.start o debug session exe) = .error .attributeError ∧
    (Server.init d none).bind Server.stop = .error .attributeError := by
  simp [Server.init, Server.initServerFields, hd, Server.start, Server.stop,
    Except.map, Except.bind]

/-- C3 counterexample: on the spec's directive list the third directive
ends in `'?'` but the FIRST does not, so `Server.start(debug=True)` passes
the four directives through unchanged — not the claimed joined vector. -/
theorem start_join_marker_counterexample :
    Server.buildStartCmd true "css-css1" "./srcds_run"
        ["-game", "cstrike", "+map?", "de_dust2"] =
      ["./srcds_run", "-game", "cstrike", "+map?", "de_dust2"] ∧
    Server.buildStartCmd true "css-css1" "./srcds_run"
        ["-game", "cstrike", "+map?", "de_dust2"] ≠
      ["./srcds_run", "-game", "cstrike", "+map de_dust2"] := by
  constructor
  · rfl
  · decide

/-- C3 (amended): the join test looks only at the FIRST directive.  On the
spec's directive list the directives are appended unchanged as separate
arguments; when the first directive ends in `'?'` ALL directives are
concatenated (without separator) into one argument, else they are appended
separately. -/
theorem start_join_marker_amended :
    (∀ (debug : Bool) (session exe : String),
        Server.buildStartCmd debug session exe
            ["-game", "cstrike", "+map?", "de_dust2"] =
          (if debug then [] else ["screen", "-dmS", session]) ++
            pySplit exe ' ' ++ ["-game", "cstrike", "+map?", "de_dust2"]) ∧
    (∀ (debug : Bool) (session exe o : String) (rest : List String),
        pyEndsWith o "?" = true →
          Server.buildStartCmd debug session exe (o :: rest) =
            (if debug then [] else ["screen", "-dmS", session]) ++
              pySplit exe ' ' ++ [pyJoin (o :: rest)]) ∧
    (∀ (debug : Bool) (session exe o : String) (rest : List String),
        pyEndsWith o "?" = false →
          Server.buildStartCmd debug session exe (o :: rest) =
            (if debug then [] else ["screen", "-dmS", session]) ++
              pySplit exe ' ' ++ (o :: rest)) := by
  have hpos : ∀ (debug : Bool) (session exe o : String) (rest : List String),
      pyEndsWith o "?" = true →
        Server.buildStartCmd debug session exe (o :: rest) =
          (if debug then [] else ["screen", "-dmS", session]) ++
            pySplit exe ' ' ++ [pyJoin (o :: rest)] := by
    intro debug session exe o rest h
    simp [Server.buildStartCmd, h, List.append_assoc]
  have hneg : ∀ (debug : Bool) (session exe o : String) (rest : List String),
      pyEndsWith o "?" = false →
        Server.buildStartCmd debug session exe (o :: rest) =
          (if debug then [] else ["screen", "-dmS", session]) ++
            pySplit exe ' ' ++ (o :: rest) := by
    intro debug session exe o rest h
    simp [Server.buildStartCmd, h, List.append_assoc]
  exact ⟨fun debug session exe =>
      hneg debug session exe "-game" ["cstrike", "+map?", "de_dust2"] rfl,
    hpos, hneg⟩

/-- C3 witness: both branches of the amended claim at concrete inputs. -/
theorem start_join_marker_amended_witness :
    Server.buildStartCmd true "s" "./run" ["+map?", "de_dust2"] =
      (if true then [] else ["screen", "-dmS", "s"]) ++
        pySplit "./run" ' ' ++ [pyJoin ["+map?", "de_dust2"]] ∧
    Server.buildStartCmd true "s" "./run" ["-game", "cstrike"] =
      (if true then [] else ["screen", "-dmS", "s"]) ++
        pySplit "./run" ' ' ++ ["-game", "cstrike"] :=
  ⟨start_join_marker_amended.2.1 true "s" "./run" "+map?" ["de_dust2"] rfl,
   start_join_marker_amended.2.2 true "s" "./run" "-game" ["cstrike"] rfl⟩

/-- C8: `App.copy_config` is idempotent — after one successful call the
user-root override equals the bundled default file and the is-default flag
is false, and a second call reproduces exactly the same state. -/
theorem copy_config_idempotent (app_id : Nat) (st st2 : App.ConfigFS)
    (h : App.copy_config app_id st = .ok st2) :
    App.copy_config app_id st2 = .ok st2 ∧
    st2.configIsDefault = false ∧
    st2.configApps (App.yamlName app_id) = st.dataApps (App.yamlName app_id) := by
  unfold App.copy_config at h
  rcases hd : st.dataApps (App.yamlName app_id) with _ | c
  · rw [hd] at h; cases h
  · rw [hd] at h
    have hst : st2 =
        { st with
          configApps := fun name =>
            if name = App.yamlName app_id then some c
            else st.configApps name,
          configIsDefault := false } := by
      cases h; rfl
    subst hst
    refine ⟨?_, rfl, by simp [hd]⟩
    unfold App.copy_config
    simp only [hd]
    congr 1
    congr 1
    funext name
    by_cases hn : name = App.yamlName app_id <;> simp [hn]

/-- C8 witness: copying the definition file for app 730 twice from `exSt`
yields the state `exSt2` both times. -/
theorem copy_config_idempotent_witness :
    App.copy_config 730 exSt2 = .ok exSt2 ∧
    exSt2.configIsDefault = false ∧
    exSt2.configApps (App.yamlName 730) = exSt.dataApps (App.yamlName 730) :=
  copy_config_idempotent 730 exSt exSt2 rfl

/-- A string token offered by no variant or server of the head entry makes
`searchStr` fall through to the tail. -/
theorem searchStr_cons_skip (e : Nat × Variants) (t : IndexData) (s : String)
    (hs : s ∉ Index.entryTokens e) :
    Index.searchStr (e :: t) s = Index.searchStr t s := by
  obtain ⟨a, vs⟩ := e
  have h1 : vs.find? (fun v => v.1 == s) = none := by
    rw [List.find?_eq_none]
    intro v hv hb
    refine hs ?_
    simp only [Index.entryTokens, List.mem_flatMap]
    exact ⟨v, hv, by simp [(beq_iff_eq.mp hb).symm]⟩
  have h2 : vs.find? (fun v => v.2.contains s) = none := by
    rw [List.find?_eq_none]
    intro v hv hb
    refine hs ?_
    simp only [Index.entryTokens, List.mem_flatMap]
    refine ⟨v, hv, List.mem_cons_of_mem _ ?_⟩
    simpa using hb
  simp only [Index.searchStr]
  rw [h1, h2]

/-- A token that names a variant of the head entry resolves to that entry's
app id. -/
theorem searchStr_cons_hit_variant (a : Nat) (vs : Variants) (t : IndexData)
    (v : String × List String) (hv : v ∈ vs) :
    (Index.searchStr ((a, vs) :: t) v.1).1 = some a := by
  rcases hf : vs.find? (fun x => x.1 == v.1) with _ | w
  · rw [List.find?_eq_none] at hf
    exact absurd (by simp : (v.1 == v.1) = true) (hf v hv)
  · obtain ⟨wn, ws⟩ := w
    simp only [Index.searchStr]
    rw [hf]
    by_cases hw : v.1 ∈ ws <;> simp [hw]

/-- A token that names a server of the head entry resolves to that entry's
app id. -/
theorem searchStr_cons_hit_server (a : Nat) (vs : Variants) (t : IndexData)
    (s : String) (v : String × List String) (hv : v ∈ vs) (hs : s ∈ v.2) :
    (Index.searchStr ((a, vs) :: t) s).1 = some a := by
  rcases hf : vs.find? (fun x => x.1 == s) with _ | w
  · rcases hg : vs.find? (fun x => x.2.contains s) with _ | w2
    · rw [List.find?_eq_none] at hg
      exact absurd (by simpa using hs) (hg v hv)
    · obtain ⟨wn, ws⟩ := w2
      simp only [Index.searchStr]
      rw [hf, hg]
  · obtain ⟨wn, ws⟩ := w
    simp only [Index.searchStr]
    rw [hf]
    by_cases hw : s ∈ ws <;> simp [hw]

/-- String-token resolution over an index with globally distinct
variant/server names: any token of an entry resolves to that entry's
app id. -/
theorem searchStr_resolves (d : IndexData) (htok : (Index.strTokens d).Nodup) :
    ∀ (a : Nat) (vs : Variants), (a, vs) ∈ d →
      ∀ v ∈ vs, (Index.searchStr d v.1).1 = some a ∧
        ∀ s ∈ v.2, (Index.searchStr d s).1 = some a := by
  induction d with
  | nil => intro a vs h; exact absurd h (by simp)
  | cons e t ih =>
    intro a vs hmem v hv
    have hsplit : (Index.entryTokens e).Nodup ∧ (Index.strTokens t).Nodup ∧
        (Index.entryTokens e).Disjoint (Index.strTokens t) :=
      List.nodup_append.mp (by
        simpa [Index.strTokens, List.flatMap_cons] using htok)
    rcases List.mem_cons.mp hmem with heq | hmem'
    · cases heq
      refine ⟨searchStr_cons_hit_variant a vs t v hv, fun s hs =>
        searchStr_cons_hit_server a vs t s v hv hs⟩
    · have hent : ∀ x, x ∈ Index.entryTokens (a, vs) → x ∈ Index.strTokens t := by
        intro x hx
        simp only [Index.strTokens, List.mem_flatMap]
        exact ⟨(a, vs), hmem', hx⟩
      have hv1 : v.1 ∈ Index.entryTokens (a, vs) := by
        simp only [Index.entryTokens, List.mem_flatMap]
        exact ⟨v, hv, by simp⟩
      have ihv := ih hsplit.2.1 a vs hmem' v hv
      refine ⟨?_, fun s hs => ?_⟩
      · rw [searchStr_cons_skip e t v.1 fun hx => hsplit.2.2 hx (hent _ hv1)]
        exact ihv.1
      · have hstok : s ∈ Index.entryTokens (a, vs) := by
          simp only [Index.entryTokens, List.mem_flatMap]
          exact ⟨v, hv, List.mem_cons_of_mem _ hs⟩
        rw [searchStr_cons_skip e t s fun hx => hsplit.2.2 hx (hent _ hstok)]
        exact ihv.2 s hs

/-- C5 counterexample: in `exIdx` the token `"x"` is a server name under
the earlier app id 1 and a variant name under the later app id 2; the code
resolves it to app id 1 via the server match, not to app id 2 as the
claimed global variant-before-server order predicts. -/
theorem search_order_counterexample :
    Index.search exIdx (.str "x") = (some 1, some "v1", some "x") ∧
    Index.search exIdx (.str "x") ≠ (some 2, some "x", none) := by
  constructor
  · rfl
  · decide

/-- C5 (amended): `search` checks the numeric app-id match first; the loop
then visits app ids in insertion order and, WITHIN each app id, checks a
variant-name match before a server-name match, so a server match under an
earlier app id beats a variant match under a later one.  When the index's
variant and server names are globally distinct, each of a triple's three
identifying tokens still resolves to that triple's app id. -/
theorem search_resolves_app_id (d : IndexData)
    (htok : (Index.strTokens d).Nodup) :
    ∀ (a : Nat) (vs : Variants), (a, vs) ∈ d →
      Index.search d (.num a) = (some a, none, none) ∧
      ∀ v ∈ vs, (Index.search d (.str v.1)).1 = some a ∧
        ∀ s ∈ v.2, (Index.search d (.str s)).1 = some a := by
  intro a vs hmem
  constructor
  · have hany : d.any (fun e => e.1 == a) = true :=
      List.any_eq_true.mpr ⟨(a, vs), hmem, by simp⟩
    simp [Index.search, hany]
  · exact searchStr_resolves d htok a vs hmem

/-- C5 witness: the well-formed index `exIdx2` resolves app 730's id,
variant and server tokens to app id 730. -/
theorem search_resolves_app_id_witness :
    Index.search exIdx2 (.num 730) = (some 730, none, none) ∧
    (Index.search exIdx2 (.str "css")).1 = some 730 ∧
    (Index.search exIdx2 (.str "css2")).1 = some 730 := by
  have h := search_resolves_app_id exIdx2 (by decide) 730
    [("css", ["css1", "css2"])] (by decide)
  exact ⟨h.1, (h.2 ("css", ["css1", "css2"]) (by decide)).1,
    (h.2 ("css", ["css1", "css2"]) (by decide)).2 "css2" (by decide)⟩

/-- `list_all` unfolds entrywise. -/
theorem list_all_cons (b : Nat) (ws : Variants) (t : IndexData) :
    Index.list_all ((b, ws) :: t) =
      (if ws.length > 1 then ws.map (fun v => Token.str v.1)
       else [Token.num b]) ++ Index.list_all t := by
  simp [Index.list_all]

/-- An app id that keys no entry is never yielded by `list_all`. -/
theorem count_num_list_all_zero (d : IndexData) (a : Nat)
    (ha : a ∉ d.map (fun e => e.1)) :
    (Index.list_all d).count (Token.num a) = 0 := by
  induction d with
  | nil => rfl
  | cons e t ih =>
    obtain ⟨b, ws⟩ := e
    simp only [List.map_cons, List.mem_cons, not_or] at ha
    rw [list_all_cons, List.count_append, ih ha.2]
    by_cases hl : ws.length > 1
    · simp [hl, List.count_eq_zero]
    · simpa [hl, List.count_eq_zero] using ha.1

/-- A string token that is no entry's variant name is never yielded by
`list_all`. -/
theorem count_str_list_all_zero (d : IndexData) (s : String)
    (hs : s ∉ Index.variantNames d) :
    (Index.list_all d).count (Token.str s) = 0 := by
  induction d with
  | nil => rfl
  | cons e t ih =>
    obtain ⟨b, ws⟩ := e
    have hsplit : s ∉ Index.entryVariantNames (b, ws) ∧
        s ∉ Index.variantNames t := by
      constructor <;> intro hx <;> refine hs ?_ <;>
        simp only [Index.variantNames, List.flatMap_cons, List.mem_append]
      · exact Or.inl hx
      · exact Or.inr hx
    rw [list_all_cons, List.count_append, ih hsplit.2]
    by_cases hl : ws.length > 1
    · have h0 : (ws.map (fun v => Token.str v.1)).count (Token.str s) = 0 := by
        rw [List.count_eq_zero]
        intro hx
        rw [List.mem_map] at hx
        obtain ⟨v, hv, hveq⟩ := hx
        refine hsplit.1 ?_
        simp only [Index.entryVariantNames, List.mem_map]
        exact ⟨v, hv, by injection hveq⟩
      simp [hl, h0]
    · simp [hl, List.count_eq_zero]

/-- C7 counterexample: in `exIdxDup` the app id 1 has the two variants
`"a"` and `"b"`, yet `list_all` yields the variant name `"a"` twice (once
per declaring app id), not exactly once. -/
theorem list_all_duplicate_counterexample :
    (1, [("a", ["x"]), ("b", ["y"])]) ∈ exIdxDup ∧
    1 < ([("a", ["x"]), ("b", ["y"])] : Variants).length ∧
    ("a", ["x"]) ∈ ([("a", ["x"]), ("b", ["y"])] : Variants) ∧
    (Index.list_all exIdxDup).count (Token.str "a") = 2 := by
  refine ⟨by decide, by decide, by decide, ?_⟩
  decide

/-- C7 (amended): over an index with distinct app ids and globally distinct
variant names, `list_all` yields the bare app id exactly once for a
single-variant entry, and for a multi-variant entry each variant name
exactly once and the bare app id never. -/
theorem index_list_all_spec (d : IndexData)
    (hids : (d.map (fun e => e.1)).Nodup)
    (hnames : (Index.variantNames d).Nodup) :
    ∀ (a : Nat) (vs : Variants), (a, vs) ∈ d →
      (vs.length = 1 → (Index.list_all d).count (Token.num a) = 1) ∧
      (1 < vs.length →
        (Index.list_all d).count (Token.num a) = 0 ∧
        ∀ v ∈ vs, (Index.list_all d).count (Token.str v.1) = 1) := by
  induction d with
  | nil => intro a vs h; exact absurd h (by simp)
  | cons e t ih =>
    obtain ⟨b, ws⟩ := e
    intro a vs hmem
    simp only [List.map_cons] at hids
    have hid := List.nodup_cons.mp hids
    have hnsplit : (Index.entryVariantNames (b, ws)).Nodup ∧
        (Index.variantNames t).Nodup ∧
        (Index.entryVariantNames (b, ws)).Disjoint (Index.variantNames t) :=
      List.nodup_append.mp (by
        simpa [Index.variantNames, List.flatMap_cons] using hnames)
    rcases List.mem_cons.mp hmem with heq | hmem'
    · injection heq with hab hvs
      subst hab
      subst hvs
      have htail0 : (Index.list_all t).count (Token.num a) = 0 :=
        count_num_list_all_zero t a hid.1
      refine ⟨fun hl => ?_, fun hl => ⟨?_, fun v hv => ?_⟩⟩
      · have hnot : ¬ vs.length > 1 := by omega
        rw [list_all_cons, List.count_append, htail0]
        simp [hnot]
      · rw [list_all_cons, List.count_append, htail0]
        simp [hl, List.count_eq_zero]
      · have hv1 : v.1 ∈ Index.entryVariantNames (a, vs) :=
          List.mem_map_of_mem _ hv
        have htail : (Index.list_all t).count (Token.str v.1) = 0 :=
          count_str_list_all_zero t v.1 fun hx => hnsplit.2.2 hv1 hx
        rw [list_all_cons, List.count_append, htail, Nat.add_zero]
        simp only [hl, if_true]
        have hmapeq : vs.map (fun v => Token.str v.1) =
            (vs.map (fun v => v.1)).map Token.str := by
          simp [List.map_map, Function.comp]
        rw [hmapeq]
        rw [List.count_map_of_injective _ Token.str
          (fun x y hxy => by injection hxy) v.1]
        exact List.count_eq_one_of_mem hnsplit.1 hv1
    · have hih := ih hid.2 hnsplit.2.1 a vs hmem'
      have hamem : a ∈ t.map (fun e => e.1) := by
        simpa using List.mem_map_of_mem (fun e => e.1) hmem'
      have hane : ¬ a = b := by
        intro hx
        subst hx
        exact hid.1 hamem
      have hhead0 : (if ws.length > 1 then ws.map (fun v => Token.str v.1)
          else [Token.num b]).count (Token.num a) = 0 := by
        by_cases hl : ws.length > 1
        · simp [hl, List.count_eq_zero]
        · simpa [hl, List.count_eq_zero] using hane
      refine ⟨fun hl => ?_, fun hl => ⟨?_, fun v hv => ?_⟩⟩
      · rw [list_all_cons, List.count_append, hhead0, (hih.1 hl),
          Nat.zero_add]
      · rw [list_all_cons, List.count_append, hhead0, ((hih.2 hl).1),
          Nat.zero_add]
      · have hv1 : v.1 ∈ Index.variantNames t := by
          simp only [Index.variantNames, List.mem_flatMap]
          exact ⟨(a, vs), hmem', List.mem_map_of_mem _ hv⟩
        have hhead : (if ws.length > 1 then ws.map (fun v => Token.str v.1)
            else [Token.num b]).count (Token.str v.1) = 0 := by
          by_cases hl2 : ws.length > 1
          · have h0 : (ws.map (fun v => Token.str v.1)).count
                (Token.str v.1) = 0 := by
              rw [List.count_eq_zero]
              intro hx
              rw [List.mem_map] at hx
              obtain ⟨w, hw, hweq⟩ := hx
              refine hnsplit.2.2 ?_ hv1
              simp only [Index.entryVariantNames, List.mem_map]
              exact ⟨w, hw, by injection hweq⟩
            simp [hl2, h0]
          · simp [hl2, List.count_eq_zero]
        rw [list_all_cons, List.count_append, hhead,
          ((hih.2 hl).2 v hv), Nat.zero_add]

/-- C7 witness: in `exIdx2`, the single-variant app 730 is listed by its
bare id once, while the two-variant app 740 is listed by variant names and
never by its bare id. -/
theorem index_list_all_spec_witness :
    (Index.list_all exIdx2).count (Token.num 730) = 1 ∧
    (Index.list_all exIdx2).count (Token.num 740) = 0 ∧
    (Index.list_all exIdx2).count (Token.str "hlds") = 1 := by
  have h730 := index_list_all_spec exIdx2 (by decide) (by decide) 730
    [("css", ["css1", "css2"])] (by decide)
  have h740 := index_list_all_spec exIdx2 (by decide) (by decide) 740
    [("hlds", ["h1"]), ("hlds2", ["h2"])] (by decide)
  exact ⟨h730.1 rfl, (h740.2 (by decide)).1,
    (h740.2 (by decide)).2 ("hlds", ["h1"]) (by decide)⟩

/-- C9 witness: the single-server definition `exVar` at concrete inputs. -/
theorem server_null_resolution_attribute_error_witness :
    (Server.init exVar none).map Server.ServerObj.server_name = .ok "css1" ∧
    (Server.init exVar none).bind
        (fun o => Server.start o true "css-css1" "./srcds_run") =
      .error .attributeError ∧
    (Server.init exVar none).bind Server.stop = .error .attributeError :=
  server_null_resolution_attribute_error exVar ("css1", ["-game"], ["quit"])
    [] rfl true "css-css1" "./srcds_run"

end Scsm
